import Mathlib

/-!
Verification of the invoice-verification system (Streamlit front end in
main.py, API layer in claude_api.py) against its natural-language
specification.  The definitions below are a shallow embedding of the
Python source: dictionaries become association lists in insertion order,
PIL images become an abstract record whose boolean fields model the
success or failure of the save / encode operations that the source wraps
in try/except, and the filesystem becomes an association list from path
to open-result.
-/

/-- Whether the first character list is a prefix of the second. -/
def listPrefixOf : List Char → List Char → Bool
  | [], _ => true
  | _ :: _, [] => false
  | a :: as, b :: bs => a == b && listPrefixOf as bs

/-- Whether the first character list occurs contiguously in the second. -/
def listInfixOf (needle : List Char) : List Char → Bool
  | [] => needle.isEmpty
  | b :: rest => listPrefixOf needle (b :: rest) || listInfixOf needle rest

/-- Python's `needle in hay` substring test on strings. -/
def strContains (hay needle : String) : Bool :=
  listInfixOf needle.data hay.data

/-- Python truthiness of a string: non-empty strings are truthy. -/
def pyStrTruthy (s : String) : Bool :=
  !(s == "")

/-- The status cascade of `claude_api.call_claude_api` (claude_api.py
lines 163-179): `status_code` starts as "unclear" and is reassigned by an
if/elif chain that tests the valid marker first, then the invalid marker,
then the unclear marker. -/
def claudeApiStatusCode (result_text : String) : String :=
  if strContains result_text "STATUS: תקין" then "valid"
  else if strContains result_text "STATUS: לא תקין" then "invalid"
  else if strContains result_text "STATUS: לא ברור" then "unclear"
  else "unclear"

/-- The keyword-based verdict displayed by `show_verification_results`
(main.py lines 485-497): invalid keyword first, then unclear keyword,
otherwise the valid verdict "תקין" by default. -/
def displayStatus (result_text : String) : String :=
  if strContains result_text "לא תקין" then "לא תקין"
  else if strContains result_text "לא ברור" then "לא ברור"
  else "תקין"

/-- The signatory scan loop of `show_verification_results` (main.py lines
500-505): first roster name occurring in the text, else "לא נמצא". -/
def scanFirst : List (String × Int) → String → String
  | [], _ => "לא נמצא"
  | (name, _) :: rest, t =>
      if strContains t name then name else scanFirst rest t

/-- The full signatory resolution of `show_verification_results` (main.py
lines 499-508), including line 507: `if "לא ניתן לזהות" or "לא זוהתה
חתימה" in result_text:` — the first operand is the truthiness of the
string literal itself, so the condition resets the name unconditionally. -/
def displaySignatory (signatories : List (String × Int)) (result_text : String) : String :=
  let signatory_name := scanFirst signatories result_text
  if pyStrTruthy "לא ניתן לזהות" || strContains result_text "לא זוהתה חתימה" then
    "לא נמצא"
  else
    signatory_name

/-- Sample raw response used in the classifier counterexamples: invalid
marker plus the literal name Bob, no other roster name and no unclear
keyword. -/
def invalidBobText : String := "STATUS: לא תקין. the signer appears to be Bob"

/-- The roster of the spec's worked example. -/
def aliceBobRoster : List (String × Int) := [("Alice", 1000), ("Bob", 500)]

/-- A raw response carrying both the valid marker and the invalid marker. -/
def bothMarkersText : String := "STATUS: תקין STATUS: לא תקין"

/-- Color mode of a PIL image as used by the source (only the RGBA test
matters: main.py lines 154-159 pick PNG for RGBA and JPEG otherwise). -/
inductive PyImageMode
  | RGB
  | RGBA
deriving DecidableEq

/-- Abstract PIL image.  `pixels` stands for the decoded pixel content
(and for its transport encoding, which the embedding does not spell out
byte-wise); `saveOk` models whether `img.save(filename)` succeeds,
`altSaveOk` whether the fallback PNG save of main.py lines 170-174
succeeds, and `encodeOk` whether the in-memory JPEG encode of
`encode_image` succeeds (the source wraps each in try/except). -/
structure PILImage where
  mode : PyImageMode
  pixels : String
  saveOk : Bool
  altSaveOk : Bool
  encodeOk : Bool
deriving DecidableEq

/-- `encode_image` of claude_api.py: base64-JPEG encoding that can raise;
the encoded payload is abstracted to the pixel content. -/
def encode_image (img : PILImage) : Option String :=
  if img.encodeOk then some img.pixels else none

/-- One durable registry entry, as serialized by `save_signatories`:
`max_amount` always, `signature_image_path` only when an image was
saved. -/
structure SigEntry where
  max_amount : Int
  signature_image_path : Option String
deriving DecidableEq

/-- Python dict lookup on an insertion-ordered association list. -/
def lookupA {α : Type} : List (String × α) → String → Option α
  | [], _ => none
  | (k, v) :: rest, n => if k == n then some v else lookupA rest n

/-- The filename sanitization of main.py lines 156-159:
`name.replace(' ', '_').replace('/', '_')`. -/
def sanitizeName (name : String) : String :=
  String.mk (name.data.map (fun c => if c = ' ' || c = '/' then '_' else c))

/-- The signature filename chosen by `save_signatories`: PNG for RGBA
images, JPEG otherwise. -/
def sigFilename (name : String) (img : PILImage) : String :=
  if img.mode = PyImageMode.RGBA then
    "signatures/" ++ sanitizeName name ++ "_signature.png"
  else
    "signatures/" ++ sanitizeName name ++ "_signature.jpg"

/-- The fallback PNG filename of main.py line 171. -/
def altFilename (name : String) : String :=
  "signatures/" ++ sanitizeName name ++ "_signature.png"

/-- The image-persistence logic of main.py lines 164-176: try the primary
save and record its path; on failure try the PNG fallback; on double
failure record no path (only a warning). -/
def savedPathFor (name : String) (img : PILImage) : Option String :=
  if img.saveOk then some (sigFilename name img)
  else if img.altSaveOk then some (altFilename name)
  else none

/-- `save_signatories` (main.py lines 138-185) restricted to the JSON
snapshot it writes: every roster entry keeps its amount, and gains a
`signature_image_path` exactly when the in-memory image map holds a
non-None image for that name and some save attempt succeeds. -/
def save_signatories_data (signatories : List (String × Int))
    (signature_images : List (String × Option PILImage)) : List (String × SigEntry) :=
  signatories.map (fun pr =>
    match lookupA signature_images pr.1 with
    | some (some img) => (pr.1, SigEntry.mk pr.2 (savedPathFor pr.1 img))
    | some none => (pr.1, SigEntry.mk pr.2 none)
    | none => (pr.1, SigEntry.mk pr.2 none))

/-- The image-loading step of `load_signatories` for one entry (main.py
lines 116-124).  The filesystem is an association list from path to the
result of `safe_open_image` there: `some img` opens, `none` fails to open
(safe_open_image catches and returns None); a path absent from the list
does not exist, in which case no image entry is created at all. -/
def loadImgEntry (fs : List (String × Option PILImage)) (name : String) :
    Option String → List (String × Option PILImage)
  | none => []
  | some p =>
    match lookupA fs p with
    | none => []
    | some r => [(name, r)]

/-- `load_signatories` (main.py lines 101-135): rebuilds the in-memory
roster (name, max_amount in file order) and the in-memory image map. -/
def load_signatories (fs : List (String × Option PILImage)) :
    List (String × SigEntry) → List (String × Int) × List (String × Option PILImage)
  | [] => ([], [])
  | (name, e) :: rest =>
    let r := load_signatories fs rest
    ((name, e.max_amount) :: r.1, loadImgEntry fs name e.signature_image_path ++ r.2)

/-- Python dict assignment `signatories[m] = amt`: overwrite in place if
the key exists, append otherwise. -/
def upsertAmount : List (String × Int) → String → Int → List (String × Int)
  | [], m, amt => [(m, amt)]
  | (k, v) :: rest, m, amt =>
    if k == m then (k, amt) :: rest else (k, v) :: upsertAmount rest m amt

/-- Python dict assignment `signature_images[m] = img`. -/
def upsertImg : List (String × Option PILImage) → String → PILImage →
    List (String × Option PILImage)
  | [], m, img => [(m, some img)]
  | (k, v) :: rest, m, img =>
    if k == m then (k, some img) :: rest else (k, v) :: upsertImg rest m img


/-- Concrete durable registry used in the C10 witness: Noa has a stored
image path, Mor has none. -/
def d10 : List (String × SigEntry) :=
  [("Noa", SigEntry.mk 700 (some "signatures/Noa_signature.jpg")),
   ("Mor", SigEntry.mk 300 none)]


/-- Outcome channel of the add/update button handler (main.py lines
297-323).  The source has no ValidationError class and raises nothing on
bad input; the constructors record which code path ran: `saved` when the
guard passed and `save_signatories` was called, `mutatedUnsaved` when an
upload was supplied but failed to open (the amount mutation on line 300
happened, the save on line 309 did not), `skippedSilently` when the guard
`if new_name and new_amount > 0` failed and the handler did nothing, and
`validationError` as the outcome the specification claims — produced by
no path. -/
inductive UpsertOutcome
  | saved
  | mutatedUnsaved
  | skippedSilently
  | validationError
deriving DecidableEq

/-- In-memory session plus durable registry snapshot. -/
structure AppState where
  signatories : List (String × Int)
  signature_images : List (String × Option PILImage)
  durable : List (String × SigEntry)
deriving DecidableEq

/-- The add/update signatory button handler (main.py lines 296-323).
`upload` is the uploaded file: `none` when no file was supplied,
`some none` when `safe_open_image` fails on it, `some (some img)` when it
opens. -/
def upsertClick (s : AppState) (new_name : String) (new_amount : Int)
    (upload : Option (Option PILImage)) : AppState × UpsertOutcome :=
  if pyStrTruthy new_name && decide (0 < new_amount) then
    let sigs := upsertAmount s.signatories new_name new_amount
    match upload with
    | some (some img) =>
      let imgs := upsertImg s.signature_images new_name img
      (AppState.mk sigs imgs (save_signatories_data sigs imgs), UpsertOutcome.saved)
    | some none =>
      (AppState.mk sigs s.signature_images s.durable, UpsertOutcome.mutatedUnsaved)
    | none =>
      (AppState.mk sigs s.signature_images
        (save_signatories_data sigs s.signature_images), UpsertOutcome.saved)
  else
    (s, UpsertOutcome.skippedSilently)

/-- Concrete app state for the C5 counterexample and witness. -/
def st5 : AppState :=
  AppState.mk [("Alice", 1000)] [] (save_signatories_data [("Alice", 1000)] [])

/-- Outcome channel of `start_verification` (main.py lines 371-374).  The
source raises nothing and has no ConcurrentVerificationError class; the
embedding records that the only path taken is `started`. -/
inductive StartOutcome
  | started
  | rejectedConcurrent
deriving DecidableEq

/-- The per-session verification state (main.py lines 356-363). -/
structure SessionState where
  verification_in_progress : Bool
  show_verification_modal : Bool
  verification_result : Option String
  status_code : String
deriving DecidableEq

/-- `start_verification` (main.py lines 371-374): unconditionally sets
the in-progress flag and shows the modal; no guard, no rejection. -/
def start_verification (s : SessionState) : SessionState × StartOutcome :=
  (SessionState.mk true true s.verification_result s.status_code, StartOutcome.started)

/-- A session with a verification already in progress, for C7. -/
def busySession : SessionState :=
  SessionState.mk true true (some "pending") "unclear"


/-- A primitive file operation on the registry file.  `open(file, "w")`
truncates the file at once; `json.dump` then appends the serialized text
in one or more chunks. -/
inductive FsWriteOp
  | truncate
  | append (s : String)
deriving DecidableEq

/-- Effect of one operation on the durable file content. -/
def applyOp (content : String) (op : FsWriteOp) : String :=
  match op with
  | FsWriteOp.truncate => ""
  | FsWriteOp.append s => content ++ s

/-- Durable file content after a sequence of operations. -/
def runOps (content : String) (ops : List FsWriteOp) : String :=
  ops.foldl applyOp content

/-- The operation sequence of the registry write (main.py lines 179-180):
truncate in place, then append the JSON text chunk by chunk.  There is no
temporary file and no rename. -/
def saveWriteOps (chunks : List String) : List FsWriteOp :=
  FsWriteOp.truncate :: chunks.map FsWriteOp.append

/-- Every durable content a concurrent reader (or a crash) can observe
while the operation sequence runs, including before the first and after
the last operation. -/
def observableStates (old : String) (ops : List FsWriteOp) : List String :=
  (List.range (ops.length + 1)).map (fun k => runOps old (ops.take k))


/-- Durable side of the registry for the backup claims: whether the
registry file exists, and the timestamps (filename-encoded, lexicographic
= numeric) of the retained backup files in the backups directory. -/
structure DiskState where
  durableExists : Bool
  backups : List Nat
deriving DecidableEq

/-- The last `n` elements of a list: exactly what survives Python's
removal of `backups[:-n]`. -/
def keepLast (n : Nat) (l : List Nat) : List Nat :=
  l.drop (l.length - n)

/-- `backup_signatories_file` (main.py lines 54-72): if the registry file
exists, copy it to a new timestamped backup, then sort the backup names
and delete all but the 5 newest; if it does not exist, do nothing. -/
def backup_signatories_file (ts : Nat) (d : DiskState) : DiskState :=
  if d.durableExists then
    DiskState.mk true (keepLast 5 (List.insertionSort (fun a b => a ≤ b) (ts :: d.backups)))
  else d

/-- One registry mutation through `save_signatories` (main.py lines
138-185): backup first, then write the registry file (so it exists
afterwards). -/
def save_mutation (d : DiskState) (ts : Nat) : DiskState :=
  DiskState.mk true (backup_signatories_file ts d).backups

/-- A run of successive registry mutations at the given timestamps. -/
def runMutations (d : DiskState) (tss : List Nat) : DiskState :=
  tss.foldl save_mutation d


/-- One content part of the outbound multimodal request: a text block or
a base64 image block (payload abstracted to its pixel string). -/
inductive ContentItem
  | text (s : String)
  | image (data : String)
deriving DecidableEq

/-- The reference-signature label of claude_api.py line 120. -/
def sigLabel (name : String) : String :=
  "דוגמת חתימה של " ++ name ++ ":"

/-- The roster block of claude_api.py lines 87-89: header line plus one
line per signatory in roster iteration order. -/
def signatoriesInfo (signatories : List (String × Int)) : String :=
  signatories.foldl
    (fun acc pr => acc ++ "- " ++ pr.1 ++ ": עד " ++ toString pr.2 ++ " ש״ח\n")
    "רשימת מורשי החתימה:\n"

/-- The instruction text of claude_api.py lines 92-98. -/
def instructionText (signatories : List (String × Int)) : String :=
  "אנא בדוק את החשבונית הזו. האם היא עומדת בכל הדרישות?\n\nחשוב מאוד: סכם את הבדיקה עם שורה אחת בלבד בפורמט הבא: STATUS: [תקין/לא תקין/לא ברור]\n\n"
    ++ signatoriesInfo signatories

/-- The loop body of claude_api.py lines 115-133, for one entry of the
signature_images dict: skip None images; otherwise append the label part
first (inside the try), then attempt the encode and append the image part
only if it succeeds — an encode failure is caught after the label was
already appended, so the label stays. -/
def appendSigEntry (acc : List ContentItem) (e : String × Option PILImage) :
    List ContentItem :=
  match e.2 with
  | none => acc
  | some sig =>
    match encode_image sig with
    | some d => (acc ++ [ContentItem.text (sigLabel e.1)]) ++ [ContentItem.image d]
    | none => acc ++ [ContentItem.text (sigLabel e.1)]

/-- The request composition of `call_claude_api` (claude_api.py lines
87-133): instruction text, then the invoice image (an encode failure here
aborts with the error dict), then the signature_images loop. -/
def call_claude_api_content (invoice : PILImage) (signatories : List (String × Int))
    (signature_images : List (String × Option PILImage)) :
    Except String (List ContentItem) :=
  match encode_image invoice with
  | none => Except.error "שגיאה בקידוד תמונת החשבונית"
  | some inv =>
    Except.ok (signature_images.foldl appendSigEntry
      [ContentItem.text (instructionText signatories), ContentItem.image inv])

/-- The reference-signature parts as the code actually produces them,
written structurally: signature_images iteration order, label before
image, orphan label when the encode fails. -/
def sigPairsCode : List (String × Option PILImage) → List ContentItem
  | [] => []
  | (n, o) :: rest =>
    (match o with
     | none => []
     | some sig =>
       match encode_image sig with
       | some d => [ContentItem.text (sigLabel n), ContentItem.image d]
       | none => [ContentItem.text (sigLabel n)]) ++ sigPairsCode rest

/-- The composed request as the amended claim describes it: instruction,
invoice, then for each signature_images entry (in that mapping's own
iteration order) with a present image a label part, followed by the image
part only when the encode succeeds. -/
def composedAmendedSpec (invoice : PILImage) (signatories : List (String × Int))
    (signature_images : List (String × Option PILImage)) :
    Except String (List ContentItem) :=
  match encode_image invoice with
  | none => Except.error "שגיאה בקידוד תמונת החשבונית"
  | some inv =>
    Except.ok (ContentItem.text (instructionText signatories) :: ContentItem.image inv ::
      sigPairsCode signature_images)

/-- The reference-signature parts as claim C9 words them: roster
iteration order, one label part followed by one image part per signatory
with a usable (encodable) reference image, and nothing at all for a
signatory whose image fails to encode. -/
def sigPairsClaim (signature_images : List (String × Option PILImage)) :
    List (String × Int) → List ContentItem
  | [] => []
  | (n, _) :: rest =>
    (match lookupA signature_images n with
     | some (some sig) =>
       match encode_image sig with
       | some d => [ContentItem.text (sigLabel n), ContentItem.image d]
       | none => []
     | some none => []
     | none => []) ++ sigPairsClaim signature_images rest

/-- The composed request exactly as claim C9 states it. -/
def composedClaimSpec (invoice : PILImage) (signatories : List (String × Int))
    (signature_images : List (String × Option PILImage)) :
    Except String (List ContentItem) :=
  match encode_image invoice with
  | none => Except.error "שגיאה בקידוד תמונת החשבונית"
  | some inv =>
    Except.ok (ContentItem.text (instructionText signatories) :: ContentItem.image inv ::
      sigPairsClaim signature_images signatories)

/-- The content list of a successful composition (empty on error). -/
def okItems : Except String (List ContentItem) → List ContentItem
  | Except.ok l => l
  | Except.error _ => []

/-- Concrete images for the C9 counterexample: the invoice and two
encodable references plus one whose encode fails. -/
def invImg9 : PILImage := PILImage.mk PyImageMode.RGB "invoice-pixels" true true true

def imgA9 : PILImage := PILImage.mk PyImageMode.RGB "alice-sig-pixels" true true true

def imgB9 : PILImage := PILImage.mk PyImageMode.RGB "bob-sig-pixels" true true true

def imgC9 : PILImage := PILImage.mk PyImageMode.RGB "carol-sig-pixels" true true false

/-- Roster for C9, in roster iteration order A, B, C. -/
def sigs9 : List (String × Int) := [("A", 100), ("B", 200), ("C", 300)]

/-- signature_images dict for C9, whose insertion order B, A, C differs
from the roster order, with C failing to encode. -/
def imgs9 : List (String × Option PILImage) :=
  [("B", some imgB9), ("A", some imgA9), ("C", some imgC9)]

/-! ## Theorems -/

/-- C1 counterexample: a raw text with none of the recognized STATUS
markers for which the displayed verdict of `show_verification_results` is
"תקין" (valid) — refuting the claim that such a text is always classified
unclear and never valid. -/
theorem c1_counterexample :
    strContains "hello" "STATUS: תקין" = false ∧
    strContains "hello" "STATUS: לא תקין" = false ∧
    strContains "hello" "STATUS: לא ברור" = false ∧
    displayStatus "hello" = "תקין" := by
  decide

/-- C1 (amended): for raw text containing no recognized STATUS marker and
neither of the display keywords, the API-layer classifier in
`call_claude_api` yields "unclear" (never "valid"), while the display
classifier in `show_verification_results` defaults to the valid verdict
"תקין". -/
theorem c1_amended (t : String)
    (hv : strContains t "STATUS: תקין" = false)
    (hi : strContains t "STATUS: לא תקין" = false)
    (hu : strContains t "STATUS: לא ברור" = false)
    (hdi : strContains t "לא תקין" = false)
    (hdu : strContains t "לא ברור" = false) :
    claudeApiStatusCode t = "unclear" ∧ displayStatus t = "תקין" := by
  constructor
  · simp [claudeApiStatusCode, hv, hi, hu]
  · simp [displayStatus, hdi, hdu]

/-- C1 witness: the amended theorem applied to the concrete markerless
text "hello". -/
theorem c1_witness :
    claudeApiStatusCode "hello" = "unclear" ∧ displayStatus "hello" = "תקין" :=
  c1_amended "hello" (by decide) (by decide) (by decide) (by decide) (by decide)

/-- C2 counterexample: a raw text containing both the invalid marker and
the valid marker is classified "valid" by `call_claude_api`, because the
cascade tests the valid marker first — refuting the claimed
invalid-first priority order. -/
theorem c2_counterexample :
    strContains bothMarkersText "STATUS: לא תקין" = true ∧
    strContains bothMarkersText "STATUS: תקין" = true ∧
    claudeApiStatusCode bothMarkersText = "valid" := by
  decide

/-- C2 (amended): the cascade in `call_claude_api` tests the marker for
valid first, then the marker for invalid, then falls back to "unclear";
in particular a text containing both the valid and the invalid marker is
classified valid. -/
theorem c2_amended (t : String) :
    (strContains t "STATUS: תקין" = true → claudeApiStatusCode t = "valid") ∧
    (strContains t "STATUS: תקין" = false → strContains t "STATUS: לא תקין" = true →
      claudeApiStatusCode t = "invalid") ∧
    (strContains t "STATUS: תקין" = false → strContains t "STATUS: לא תקין" = false →
      claudeApiStatusCode t = "unclear") := by
  refine ⟨fun h1 => ?_, fun h1 h2 => ?_, fun h1 h2 => ?_⟩
  · simp [claudeApiStatusCode, h1]
  · simp [claudeApiStatusCode, h1, h2]
  · simp [claudeApiStatusCode, h1, h2, ite_self]

/-- C2 witness: the amended cascade applied to the concrete text holding
both markers. -/
theorem c2_witness : claudeApiStatusCode bothMarkersText = "valid" :=
  (c2_amended bothMarkersText).1 (by decide)

/-- C3: evaluation of the code at the spec's worked example.  The display
verdict is invalid and the scan loop does find "Bob", but line 507 of
main.py (`if "לא ניתן לזהות" or "לא זוהתה חתימה" in result_text:`) tests
the truthiness of a non-empty string literal, so it is always true and
unconditionally resets the matched signatory to "לא נמצא". -/
theorem c3_code_eval :
    displayStatus invalidBobText = "לא תקין" ∧
    scanFirst aliceBobRoster invalidBobText = "Bob" ∧
    displaySignatory aliceBobRoster invalidBobText = "לא נמצא" := by
  decide



/-- Helper: loading back the snapshot written by `save_signatories`
returns the roster unchanged (names, order and amounts), whatever the
image map and the filesystem contain. -/
theorem load_fst_save (fs imgs : List (String × Option PILImage)) :
    ∀ sigs : List (String × Int),
      (load_signatories fs (save_signatories_data sigs imgs)).1 = sigs := by
  intro sigs
  induction sigs with
  | nil => rfl
  | cons hd tl ih =>
    obtain ⟨n, a⟩ := hd
    cases hM : lookupA imgs n with
    | none => simpa [save_signatories_data, load_signatories, hM] using ih
    | some o => cases o <;> simpa [save_signatories_data, load_signatories, hM] using ih

/-- Helper: a key found in the durable snapshot is found, with its
amount, in the roster produced by `load_signatories`. -/
theorem lookupA_load_fst (fs : List (String × Option PILImage)) :
    ∀ (d : List (String × SigEntry)) (n : String) (e : SigEntry),
      lookupA d n = some e → lookupA (load_signatories fs d).1 n = some e.max_amount := by
  intro d
  induction d with
  | nil => intro n e h; simp [lookupA] at h
  | cons hd rest ih =>
    intro n e h
    obtain ⟨k, e0⟩ := hd
    by_cases hk : (k == n) = true
    · simp only [lookupA, hk, if_pos] at h
      cases h
      simp [load_signatories, lookupA, hk]
    · simp only [lookupA, hk, Bool.false_eq_true, if_false] at h
      simp [load_signatories, lookupA, hk, ih n e h]

/-- Helper: a name that keys no entry of the durable snapshot gets no
entry in the loaded image map. -/
theorem lookupA_load_img_absent (fs : List (String × Option PILImage)) :
    ∀ (d : List (String × SigEntry)) (n : String), (∀ pr ∈ d, pr.1 ≠ n) →
      lookupA (load_signatories fs d).2 n = none := by
  intro d
  induction d with
  | nil => intro n _; rfl
  | cons hd rest ih =>
    intro n hne
    obtain ⟨k, e0⟩ := hd
    have hk : (k == n) = false := by
      simp only [beq_eq_false_iff_ne]
      exact hne (k, e0) (List.mem_cons_self _ _)
    have hrest := ih n (fun pr hpr => hne pr (List.mem_cons_of_mem _ hpr))
    cases hp : e0.signature_image_path with
    | none => simp [load_signatories, loadImgEntry, hp, hrest]
    | some p =>
      cases hf : lookupA fs p with
      | none => simp [load_signatories, loadImgEntry, hp, hf, hrest]
      | some r => simp [load_signatories, loadImgEntry, hp, hf, lookupA, hk, hrest]

/-- Helper: when the unique entry for a name carries an image path that
is missing from the filesystem or fails to open, the loaded image map
holds no usable image for that name: either no entry at all, or an entry
whose value is None. -/
theorem lookupA_load_img_broken (fs : List (String × Option PILImage)) :
    ∀ (d : List (String × SigEntry)) (n : String) (a : Int) (p : String),
      (d.map Prod.fst).Nodup →
      lookupA d n = some (SigEntry.mk a (some p)) →
      (lookupA fs p = none ∨ lookupA fs p = some none) →
      (lookupA (load_signatories fs d).2 n = none ∨
        lookupA (load_signatories fs d).2 n = some none) := by
  intro d
  induction d with
  | nil => intro n a p _ h _; simp [lookupA] at h
  | cons hd rest ih =>
    intro n a p hnd h hb
    obtain ⟨k, e0⟩ := hd
    by_cases hk : (k == n) = true
    · simp only [lookupA, hk, if_pos] at h
      cases h
      have hkn : k = n := by simpa using hk
      have hnd2 : (k :: rest.map Prod.fst).Nodup := by simpa using hnd
      have hnotin : ∀ pr ∈ rest, pr.1 ≠ n := by
        intro pr hpr hc
        have hmem : pr.1 ∈ rest.map Prod.fst := List.mem_map_of_mem Prod.fst hpr
        rw [hc, ← hkn] at hmem
        exact (List.nodup_cons.mp hnd2).1 hmem
      have habs := lookupA_load_img_absent fs rest n hnotin
      cases hb with
      | inl hb => left; simp [load_signatories, loadImgEntry, hb, habs]
      | inr hb => right; simp [load_signatories, loadImgEntry, hb, lookupA, hk]
    · simp only [lookupA, hk, Bool.false_eq_true, if_false] at h
      have hnd2 : (k :: rest.map Prod.fst).Nodup := by simpa using hnd
      have hrest := ih n a p (List.nodup_cons.mp hnd2).2 h hb
      cases hp : e0.signature_image_path with
      | none => simpa [load_signatories, loadImgEntry, hp] using hrest
      | some q =>
        cases hf : lookupA fs q with
        | none => simpa [load_signatories, loadImgEntry, hp, hf] using hrest
        | some r => simpa [load_signatories, loadImgEntry, hp, hf, lookupA, hk] using hrest

/-- Helper: writing an amount under one key leaves lookups of a
different key unchanged. -/
theorem lookupA_upsertAmount (m n : String) (amt : Int) (hmn : (m == n) = false) :
    ∀ sigs : List (String × Int),
      lookupA (upsertAmount sigs m amt) n = lookupA sigs n := by
  intro sigs
  induction sigs with
  | nil => simp [upsertAmount, lookupA, hmn]
  | cons hd rest ih =>
    obtain ⟨k, v⟩ := hd
    by_cases hkm : (k == m) = true
    · have hkn : (k == n) = false := by
        have : k = m := by simpa using hkm
        simpa [this] using hmn
      simp [upsertAmount, hkm, lookupA, hkn]
    · by_cases hkn : (k == n) = true
      · simp [upsertAmount, hkm, lookupA, hkn]
      · simp [upsertAmount, hkm, lookupA, hkn, ih]

/-- Helper: `save_signatories` writes an entry with no image path for any
roster name whose in-memory image is absent or None. -/
theorem lookupA_save (imgs : List (String × Option PILImage)) :
    ∀ (sigs : List (String × Int)) (n : String) (a : Int),
      lookupA sigs n = some a →
      (lookupA imgs n = none ∨ lookupA imgs n = some none) →
      lookupA (save_signatories_data sigs imgs) n = some (SigEntry.mk a none) := by
  intro sigs
  induction sigs with
  | nil => intro n a h _; simp [lookupA] at h
  | cons hd rest ih =>
    intro n a h himg
    obtain ⟨k, v⟩ := hd
    by_cases hk : (k == n) = true
    · simp only [lookupA, hk, if_pos] at h
      cases h
      have hkn : k = n := by simpa using hk
      cases himg with
      | inl hb => simp [save_signatories_data, hkn, hb, lookupA]
      | inr hb => simp [save_signatories_data, hkn, hb, lookupA]
    · simp only [lookupA, hk, Bool.false_eq_true, if_false] at h
      have := ih n a h himg
      cases hM : lookupA imgs k with
      | none => simpa [save_signatories_data, lookupA, hk, hM] using this
      | some o => cases o <;> simpa [save_signatories_data, lookupA, hk, hM] using this

/-- C8: for every valid roster (unique non-empty names, non-negative
limits), saving the registry and then loading it returns the same roster:
same names in the same order with the same limits, for any image map and
any filesystem. -/
theorem c8_theorem (fs : List (String × Option PILImage)) (sigs : List (String × Int))
    (imgs : List (String × Option PILImage))
    (_hnodup : (sigs.map Prod.fst).Nodup)
    (_hne : ∀ pr ∈ sigs, pr.1 ≠ "")
    (_hnn : ∀ pr ∈ sigs, 0 ≤ pr.2) :
    (load_signatories fs (save_signatories_data sigs imgs)).1 = sigs :=
  load_fst_save fs imgs sigs

/-- C8 witness: the round trip at the concrete roster Alice 1000,
Bob 500. -/
theorem c8_witness :
    (load_signatories [] (save_signatories_data aliceBobRoster [])).1 = aliceBobRoster :=
  c8_theorem [] aliceBobRoster [] (by decide) (by decide) (by decide)

/-- C10: if the unique durable entry of signatory n carries an image
path that is missing from the filesystem or fails to open, then loading
yields n with its limit but no usable image, and the snapshot written by
the next save — here triggered by updating a different signatory m —
records n without any signature_image_path. -/
theorem c10_theorem (fs : List (String × Option PILImage)) (d : List (String × SigEntry))
    (n p : String) (a : Int) (m : String) (amt : Int)
    (hnd : (d.map Prod.fst).Nodup)
    (hn : lookupA d n = some (SigEntry.mk a (some p)))
    (hb : lookupA fs p = none ∨ lookupA fs p = some none)
    (hm : (m == n) = false) :
    lookupA (load_signatories fs d).1 n = some a ∧
    (lookupA (load_signatories fs d).2 n = none ∨
      lookupA (load_signatories fs d).2 n = some none) ∧
    lookupA (save_signatories_data (upsertAmount (load_signatories fs d).1 m amt)
      (load_signatories fs d).2) n = some (SigEntry.mk a none) := by
  have h1 := lookupA_load_fst fs d n (SigEntry.mk a (some p)) hn
  have h2 := lookupA_load_img_broken fs d n a p hnd hn hb
  refine ⟨h1, h2, ?_⟩
  have h3 : lookupA (upsertAmount (load_signatories fs d).1 m amt) n = some a := by
    rw [lookupA_upsertAmount m n amt hm]
    exact h1
  exact lookupA_save (load_signatories fs d).2 _ n a h3 h2

/-- C10 witness: the theorem at the concrete registry `d10` with an empty
filesystem (Noa's stored path does not exist), saving after updating
Mor. -/
theorem c10_witness :
    lookupA (load_signatories [] d10).1 "Noa" = some 700 ∧
    (lookupA (load_signatories [] d10).2 "Noa" = none ∨
      lookupA (load_signatories [] d10).2 "Noa" = some none) ∧
    lookupA (save_signatories_data (upsertAmount (load_signatories [] d10).1 "Mor" 900)
      (load_signatories [] d10).2) "Noa" = some (SigEntry.mk 700 none) :=
  c10_theorem [] d10 "Noa" "signatures/Noa_signature.jpg" 700 "Mor" 900
    (by decide) (by decide) (Or.inl (by decide)) (by decide)


/-- C5 counterexample: the spec's own failing input, `max_amount = -1`
with a non-empty name.  The handler does not fail with ValidationError —
it silently skips, leaving both the in-memory state and durable storage
untouched. -/
theorem c5_counterexample :
    (upsertClick st5 "Dana" (-1) none).2 = UpsertOutcome.skippedSilently ∧
    UpsertOutcome.skippedSilently ≠ UpsertOutcome.validationError ∧
    (upsertClick st5 "Dana" (-1) none).1 = st5 := by
  decide

/-- C5 (amended): a call with empty name or non-positive amount (the
guard requires strictly positive, so 0 is also rejected) performs no
mutation and no save — the whole state, durable storage included, is
returned unchanged — but no ValidationError is raised; the handler
silently does nothing. -/
theorem c5_amended (s : AppState) (name : String) (amount : Int)
    (upload : Option (Option PILImage))
    (h : pyStrTruthy name = false ∨ amount ≤ 0) :
    upsertClick s name amount upload = (s, UpsertOutcome.skippedSilently) := by
  have hguard : (pyStrTruthy name && decide (0 < amount)) = false := by
    cases h with
    | inl h => simp [h]
    | inr h => simp [decide_eq_false (by omega : ¬ (0 < amount))]
  simp [upsertClick, hguard]

/-- C5 witness: the amended theorem at an empty name with a positive
amount. -/
theorem c5_witness : upsertClick st5 "" 5 none = (st5, UpsertOutcome.skippedSilently) :=
  c5_amended st5 "" 5 none (Or.inl (by decide))

/-- C7 counterexample: starting a verification while `busySession` is
already in progress is not rejected — the handler returns the `started`
outcome, never `rejectedConcurrent`, and simply re-sets the flags. -/
theorem c7_counterexample :
    busySession.verification_in_progress = true ∧
    (start_verification busySession).2 = StartOutcome.started ∧
    StartOutcome.started ≠ StartOutcome.rejectedConcurrent := by
  decide

/-- C7 (amended): starting a verification while one is in progress is not
rejected and raises no error: the outcome is `started`, exactly as from
an idle session, and the stored result of the in-flight attempt is left
untouched by the start itself (its slot is only overwritten later when
the new attempt completes). -/
theorem c7_amended (s : SessionState) (_h : s.verification_in_progress = true) :
    (start_verification s).2 = StartOutcome.started ∧
    (start_verification s).1.verification_result = s.verification_result ∧
    (start_verification s).1 =
      (start_verification (SessionState.mk false s.show_verification_modal
        s.verification_result s.status_code)).1 := by
  exact ⟨rfl, rfl, rfl⟩

/-- C7 witness: the amended theorem at the concrete busy session. -/
theorem c7_witness :
    (start_verification busySession).2 = StartOutcome.started ∧
    (start_verification busySession).1.verification_result = busySession.verification_result ∧
    (start_verification busySession).1 =
      (start_verification (SessionState.mk false busySession.show_verification_modal
        busySession.verification_result busySession.status_code)).1 :=
  c7_amended busySession (by decide)


/-- C4 counterexample: writing a new snapshot over an old one is not
write-then-replace.  Among the observable intermediate contents of the
in-place write there is one — the empty file left by the truncating
open — that is neither the prior durable state nor the new one; a reader
can observe it and a crash there loses the prior state. -/
theorem c4_counterexample :
    ¬ ∀ s ∈ observableStates "OLD-SNAPSHOT" (saveWriteOps ["NEW-", "SNAPSHOT"]),
        s = "OLD-SNAPSHOT" ∨ s = "NEW-SNAPSHOT" := by
  decide

/-- Helper: appends accumulate left to right. -/
theorem runOps_append_chunks (chunks : List String) :
    ∀ s : String, runOps s (chunks.map FsWriteOp.append) =
      chunks.foldl (fun a c => a ++ c) s := by
  induction chunks with
  | nil => intro s; rfl
  | cons c rest ih => intro s; simpa [runOps, applyOp] using ih (s ++ c)

/-- C4 (amended): the registry write opens the file in truncate mode and
writes the JSON in place.  A completed write leaves exactly the
concatenated new text, independent of the prior content; but immediately
after the truncating open the durable file is empty — an observable
state, so a reader can see a non-old, non-new file and a failure at that
point has already destroyed the prior durable content of the registry
file (only the timestamped backup copy made beforehand survives). -/
theorem c4_amended (old : String) (chunks : List String) :
    runOps old (saveWriteOps chunks) = chunks.foldl (fun a c => a ++ c) "" ∧
    runOps old (List.take 1 (saveWriteOps chunks)) = "" ∧
    "" ∈ observableStates old (saveWriteOps chunks) := by
  refine ⟨?_, rfl, ?_⟩
  · simp only [saveWriteOps, runOps, List.foldl_cons, applyOp]
    exact runOps_append_chunks chunks ""
  · have h1 : (1 : Nat) ∈ List.range ((saveWriteOps chunks).length + 1) := by
      simp [saveWriteOps]
    exact List.mem_map.mpr ⟨1, h1, rfl⟩


/-- Helper: inserting an element above everything in the list puts it at
the end. -/
theorem orderedInsert_max (ts : Nat) :
    ∀ bs : List Nat, (∀ b ∈ bs, b < ts) →
      List.orderedInsert (fun a b => a ≤ b) ts bs = bs ++ [ts] := by
  intro bs
  induction bs with
  | nil => intro _; rfl
  | cons b l ih =>
    intro h
    have hb : ¬ (ts ≤ b) := by
      have := h b (List.mem_cons_self _ _)
      omega
    simp [List.orderedInsert, hb, ih (fun x hx => h x (List.mem_cons_of_mem _ hx))]

/-- Helper: sorting a fresh maximal timestamp into an already sorted
backup list appends it at the end. -/
theorem insertionSort_max (ts : Nat) (bs : List Nat)
    (hs : List.Sorted (fun a b => a ≤ b) bs) (h : ∀ b ∈ bs, b < ts) :
    List.insertionSort (fun a b => a ≤ b) (ts :: bs) = bs ++ [ts] := by
  have h1 : List.insertionSort (fun a b => a ≤ b) (ts :: bs)
      = List.orderedInsert (fun a b => a ≤ b) ts bs := by
    simp only [List.insertionSort, hs.insertionSort_eq]
  rw [h1, orderedInsert_max ts bs h]

/-- Helper: keepLast is the identity on short lists. -/
theorem keepLast_eq_self (l : List Nat) (h : l.length ≤ 5) : keepLast 5 l = l := by
  simp [keepLast, Nat.sub_eq_zero_of_le h]

/-- Helper: keepLast keeps at most 5 elements. -/
theorem keepLast_length_le (l : List Nat) : (keepLast 5 l).length ≤ 5 := by
  simp [keepLast]
  omega

/-- Helper: dropping past a left factor drops inside the right factor. -/
theorem drop_length_add (l1 l2 : List Nat) (k : Nat) :
    (l1 ++ l2).drop (l1.length + k) = l2.drop k := by
  induction l1 with
  | nil => simp
  | cons a l ih =>
    have h : (a :: l).length + k = (l.length + k) + 1 := by
      simp only [List.length_cons]
      omega
    rw [List.cons_append, h, List.drop_succ_cons, ih]

/-- Helper: the last 5 of an append do not depend on the left factor when
the right factor already has 5 elements. -/
theorem keepLast_append_right (l1 l2 : List Nat) (h : 5 ≤ l2.length) :
    keepLast 5 (l1 ++ l2) = keepLast 5 l2 := by
  unfold keepLast
  have h1 : (l1 ++ l2).length - 5 = l1.length + (l2.length - 5) := by
    rw [List.length_append]
    omega
  rw [h1, drop_length_add]

/-- Helper: trimming to the last 5, appending, and trimming again is the
same as trimming the full append. -/
theorem keepLast_absorb (xs ys : List Nat) :
    keepLast 5 (keepLast 5 xs ++ ys) = keepLast 5 (xs ++ ys) := by
  by_cases h : xs.length ≤ 5
  · rw [keepLast_eq_self xs h]
  · have hlen2 : 5 ≤ (List.drop (xs.length - 5) xs ++ ys).length := by
      rw [List.length_append, List.length_drop]
      omega
    have h2 := keepLast_append_right (List.take (xs.length - 5) xs)
      (List.drop (xs.length - 5) xs ++ ys) hlen2
    calc keepLast 5 (keepLast 5 xs ++ ys)
        = keepLast 5 (List.drop (xs.length - 5) xs ++ ys) := rfl
      _ = keepLast 5 (List.take (xs.length - 5) xs ++ (List.drop (xs.length - 5) xs ++ ys)) :=
          h2.symm
      _ = keepLast 5 (xs ++ ys) := by rw [← List.append_assoc, List.take_append_drop]

/-- Helper: keepLast preserves sortedness. -/
theorem sorted_keepLast (l : List Nat) (h : List.Sorted (fun a b => a ≤ b) l) :
    List.Sorted (fun a b => a ≤ b) (keepLast 5 l) :=
  List.Pairwise.sublist (List.drop_sublist _ _) h

/-- Helper: appending a maximal element keeps the list sorted. -/
theorem sorted_append_max (bs : List Nat) (ts : Nat)
    (hs : List.Sorted (fun a b => a ≤ b) bs) (h : ∀ b ∈ bs, b < ts) :
    List.Sorted (fun a b => a ≤ b) (bs ++ [ts]) := by
  refine List.pairwise_append.mpr ⟨hs, List.pairwise_singleton _ _, ?_⟩
  intro a ha b hb
  simp only [List.mem_singleton] at hb
  subst hb
  exact Nat.le_of_lt (h a ha)

/-- Helper: running mutations with strictly increasing fresh timestamps
over an existing registry keeps exactly the last 5 of all backup
timestamps seen. -/
theorem runMutations_backups :
    ∀ (tss bs : List Nat),
      List.Sorted (fun a b => a ≤ b) bs → bs.length ≤ 5 →
      (∀ b ∈ bs, ∀ t ∈ tss, b < t) → tss.Pairwise (fun a b => a < b) →
      runMutations (DiskState.mk true bs) tss = DiskState.mk true (keepLast 5 (bs ++ tss))
  | [], bs => by
    intro hs hl _ _
    simp [runMutations, keepLast_eq_self bs hl]
  | ts :: rest, bs => by
    intro hs hl hlt hpw
    have hbts : ∀ b ∈ bs, b < ts := fun b hb => hlt b hb ts (List.mem_cons_self _ _)
    have hstep : save_mutation (DiskState.mk true bs) ts
        = DiskState.mk true (keepLast 5 (bs ++ [ts])) := by
      have hd : save_mutation (DiskState.mk true bs) ts
          = DiskState.mk true (keepLast 5 (List.insertionSort (fun a b => a ≤ b) (ts :: bs))) :=
        rfl
      rw [hd, insertionSort_max ts bs hs hbts]
    have hpw2 := List.pairwise_cons.mp hpw
    have hs2 : List.Sorted (fun a b => a ≤ b) (keepLast 5 (bs ++ [ts])) :=
      sorted_keepLast _ (sorted_append_max bs ts hs hbts)
    have hlt2 : ∀ b ∈ keepLast 5 (bs ++ [ts]), ∀ t ∈ rest, b < t := by
      intro b hb t ht
      have hb2 : b ∈ bs ++ [ts] := List.drop_subset _ _ hb
      rcases List.mem_append.mp hb2 with h1 | h1
      · exact hlt b h1 t (List.mem_cons_of_mem _ ht)
      · simp only [List.mem_singleton] at h1
        subst h1
        exact hpw2.1 t ht
    have ih := runMutations_backups rest (keepLast 5 (bs ++ [ts])) hs2
      (keepLast_length_le _) hlt2 hpw2.2
    calc runMutations (DiskState.mk true bs) (ts :: rest)
        = runMutations (DiskState.mk true (keepLast 5 (bs ++ [ts]))) rest := by
          simp only [runMutations, List.foldl_cons, hstep]
      _ = DiskState.mk true (keepLast 5 (keepLast 5 (bs ++ [ts]) ++ rest)) := ih
      _ = DiskState.mk true (keepLast 5 (bs ++ ts :: rest)) := by
          rw [keepLast_absorb, List.append_assoc, List.singleton_append]

/-- C6: over an existing registry with no prior backups, after N > 5
successive mutations with strictly increasing timestamps exactly 5
backups remain and they are the 5 most recent (the last 5 timestamps);
moreover at every intermediate point at most 5 backups are retained. -/
theorem c6_theorem (tss : List Nat) (hlen : 5 < tss.length)
    (hpw : tss.Pairwise (fun a b => a < b)) :
    (runMutations (DiskState.mk true []) tss).backups = tss.drop (tss.length - 5) ∧
    (runMutations (DiskState.mk true []) tss).backups.length = 5 ∧
    ∀ k, ((runMutations (DiskState.mk true []) (tss.take k)).backups).length ≤ 5 := by
  have h := runMutations_backups tss [] List.sorted_nil (by simp) (by simp) hpw
  refine ⟨?_, ?_, ?_⟩
  · rw [h]
    simp [keepLast]
  · rw [h]
    simp [keepLast]
    omega
  · intro k
    have hk := runMutations_backups (tss.take k) [] List.sorted_nil (by simp) (by simp)
      (List.Pairwise.sublist (List.take_sublist _ _) hpw)
    rw [hk]
    exact keepLast_length_le _

/-- C6 witness: six mutations at timestamps 1..6 retain exactly the five
most recent backups 2..6. -/
theorem c6_witness :
    (runMutations (DiskState.mk true []) [1, 2, 3, 4, 5, 6]).backups = [2, 3, 4, 5, 6] := by
  have h := c6_theorem [1, 2, 3, 4, 5, 6] (by decide) (by decide)
  rw [h.1]
  rfl


/-- Helper: the appendSigEntry loop is the initial accumulator followed
by the structural part list. -/
theorem foldl_appendSigEntry :
    ∀ (l : List (String × Option PILImage)) (acc : List ContentItem),
      l.foldl appendSigEntry acc = acc ++ sigPairsCode l
  | [], acc => by simp [sigPairsCode]
  | (n, o) :: rest, acc => by
    cases o with
    | none =>
      simp only [List.foldl_cons, sigPairsCode, List.nil_append]
      exact foldl_appendSigEntry rest acc
    | some sig =>
      cases hE : encode_image sig with
      | none =>
        simp only [List.foldl_cons, sigPairsCode, hE]
        rw [foldl_appendSigEntry rest]
        simp [appendSigEntry, hE]
      | some d =>
        simp only [List.foldl_cons, sigPairsCode, hE]
        rw [foldl_appendSigEntry rest]
        simp [appendSigEntry, hE]

set_option maxRecDepth 8000 in
/-- C9 counterexample: at a roster ordered A, B, C and a signature_images
dict inserted in order B, A, C whose C image fails to encode, the content
list the code composes differs from the one the claim describes — the
code follows the dict order B, A and leaves an orphan label for C, while
the claim prescribes roster order A, B and no part at all for C. -/
theorem c9_counterexample :
    okItems (call_claude_api_content invImg9 sigs9 imgs9) ≠
      okItems (composedClaimSpec invImg9 sigs9 imgs9) := by
  decide

/-- C9 (amended): the composed request is the instruction part, then the
invoice image part (an invoice encode failure aborts composition with the
error), then — iterating over signature_images in its own insertion
order, not the roster's — for each entry holding a non-None image a label
part, followed by that image's part exactly when its encode succeeds; an
entry whose image fails to encode leaves its label part with no image
part. -/
theorem c9_amended (invoice : PILImage) (signatories : List (String × Int))
    (signature_images : List (String × Option PILImage)) :
    call_claude_api_content invoice signatories signature_images =
      composedAmendedSpec invoice signatories signature_images := by
  unfold call_claude_api_content composedAmendedSpec
  cases encode_image invoice with
  | none => rfl
  | some inv => simp [foldl_appendSigEntry]
